import Mathlib

/-!
Verification of the dbibackend USB title server (src/dbibackend.c).

Byte strings are modelled as `List Nat` (each element one byte).  Machine
integers are modelled as `Nat`, with explicit `% 2^32` where the 32-bit
wire encoding truncates.  The wire protocol, the title catalog, the
directory scan, and the command handlers are shallowly embedded below;
the session loop is modelled as a step function over the inputs the
`usb_read` calls return.
-/

namespace DbiBackend

/-- BUFFER_SEGMENT_DATA_SIZE, the fixed transfer chunk unit (0x100000 bytes). -/
def BUFFER_SEGMENT_DATA_SIZE : Nat := 0x100000

/-- MAX_TITLES, the capacity bound of the title cache. -/
def MAX_TITLES : Nat := 1024

/-- MAX_PATH_LEN, size of the fixed path buffers. -/
def MAX_PATH_LEN : Nat := 4096

/-- Command id CMD_EXIT. -/
def CMD_EXIT : Nat := 0

/-- Command id CMD_LIST_DEPRECATED (ListLegacy, served by no handler). -/
def CMD_LIST_DEPRECATED : Nat := 1

/-- Command id CMD_FILE_RANGE. -/
def CMD_FILE_RANGE : Nat := 2

/-- Command id CMD_LIST. -/
def CMD_LIST : Nat := 3

/-- Command type CMD_TYPE_REQUEST. -/
def CMD_TYPE_REQUEST : Nat := 0

/-- Command type CMD_TYPE_RESPONSE. -/
def CMD_TYPE_RESPONSE : Nat := 1

/-- Command type CMD_TYPE_ACK. -/
def CMD_TYPE_ACK : Nat := 2

/-- The 4-byte magic tag "DBI0" (bytes of 'D', 'B', 'I', '0'). -/
def DBI_MAGIC : List Nat := [68, 66, 73, 48]

/-- A 32-bit value laid out as 4 bytes, low byte first (the layout a
little-endian host produces for the `*(uint32_t*)(buf + off) = v` stores). -/
def u32ToBytes (v : Nat) : List Nat :=
  [v % 256, v / 256 % 256, v / 65536 % 256, v / 16777216 % 256]

/-- Recombination of 4 bytes into a 32-bit value, low byte first. -/
def u32FromBytes (b0 b1 b2 b3 : Nat) : Nat :=
  b0 + b1 * 256 + b2 * 65536 + b3 * 16777216

/-- The `*(uint32_t*)(buf + off)` load: 4 bytes at offset `off`, low first. -/
def decodeU32 (buf : List Nat) (off : Nat) : Nat :=
  u32FromBytes (buf.getD off 0) (buf.getD (off + 1) 0)
    (buf.getD (off + 2) 0) (buf.getD (off + 3) 0)

/-- The `*(uint64_t*)(buf + off)` load: 8 bytes at offset `off`, low first. -/
def decodeU64 (buf : List Nat) (off : Nat) : Nat :=
  decodeU32 buf off + decodeU32 buf (off + 4) * 4294967296

/-- The 16-byte command header the handlers emit: magic tag, then type, id
and payload_length packed contiguously as 32-bit values
(`memcpy(response, "DBI0", 4)` followed by the three stores). -/
def encodeHeader (cmdType cmdId payloadLength : Nat) : List Nat :=
  DBI_MAGIC ++ u32ToBytes cmdType ++ u32ToBytes cmdId ++ u32ToBytes payloadLength

/-- The header fields `poll_commands` reads from an inbound 16-byte buffer:
the 4 magic bytes and the three 32-bit loads at offsets 4, 8 and 12. -/
def decodeHeader (buf : List Nat) : List Nat × Nat × Nat × Nat :=
  (buf.take 4, decodeU32 buf 4, decodeU32 buf 8, decodeU32 buf 12)

/-- One title cache entry: the filename component used as wire identifier,
and the absolute on-disk path. -/
structure TitleEntry where
  display_name : List Nat
  full_path : List Nat
deriving DecidableEq

/-- find_title_path: linear search of the cache for an exact display_name
match; the first match's full_path is returned, otherwise the queried
name itself. -/
def find_title_path (cache : List TitleEntry) (display_name : List Nat) : List Nat :=
  match cache with
  | [] => display_name
  | e :: rest =>
    if e.display_name = display_name then e.full_path
    else find_title_path rest display_name

/-- tolower for a single byte, as the C locale's tolower used by
strcasecmp: only ASCII A..Z change. -/
def toLowerByte (b : Nat) : Nat := if 65 ≤ b ∧ b ≤ 90 then b + 32 else b

/-- has_valid_extension: the name's last 4 bytes compare case-insensitively
equal to ".nsp", ".xci" or ".nsz"; names shorter than 4 bytes fail. -/
def has_valid_extension (filename : List Nat) : Bool :=
  if filename.length < 4 then false
  else
    let ext := (filename.drop (filename.length - 4)).map toLowerByte
    ext == [46, 110, 115, 112] || ext == [46, 120, 99, 105] || ext == [46, 110, 115, 122]

/-- A directory tree as the filesystem collaborator presents it: each
directory entry is a regular file or a subdirectory with its own entries,
in readdir enumeration order. -/
inductive FsTree where
  | file (name : List Nat)
  | dir (name : List Nat) (entries : List FsTree)

/-- snprintf(full_path, MAX_PATH_LEN, "%s/%s", path, name): the joined
path truncated to MAX_PATH_LEN - 1 bytes. -/
def join_path (path name : List Nat) : List Nat :=
  (path ++ [47] ++ name).take (MAX_PATH_LEN - 1)

mutual

/-- One iteration of scan_directory's readdir loop body: "." and ".." are
skipped, a subdirectory is recursed into (its opendir is recorded in the
second component), and a regular file with a valid extension is appended
to the cache (display_name truncated to 255 bytes by strncpy, full_path
to MAX_PATH_LEN - 1). -/
def scan_dirent (path : List Nat) (e : FsTree) (cache : List TitleEntry) :
    List TitleEntry × List (List Nat) :=
  match e with
  | FsTree.file name =>
    if name = [46] ∨ name = [46, 46] then (cache, [])
    else if has_valid_extension name then
      (cache ++ [{ display_name := name.take 255, full_path := join_path path name }], [])
    else (cache, [])
  | FsTree.dir name children =>
    if name = [46] ∨ name = [46, 46] then (cache, [])
    else
      ((scan_directory (join_path path name) children cache).1,
        join_path path name :: (scan_directory (join_path path name) children cache).2)

/-- scan_directory's readdir loop over the entries of one directory: the
condition `cache->count < MAX_TITLES` is re-checked before every entry,
and the loop exits as soon as the cache is full.  The second component
records every directory path opened by a recursive call. -/
def scan_directory (path : List Nat) (es : List FsTree) (cache : List TitleEntry) :
    List TitleEntry × List (List Nat) :=
  match es with
  | [] => (cache, [])
  | e :: rest =>
    if cache.length < MAX_TITLES then
      ((scan_directory path rest (scan_dirent path e cache).1).1,
        (scan_dirent path e cache).2 ++
          (scan_directory path rest (scan_dirent path e cache).1).2)
    else (cache, [])

end

mutual

/-- Number of regular files with a valid extension in one tree (what the
claim counts, transitively under the root). -/
def tree_count : FsTree → Nat
  | FsTree.file name => if has_valid_extension name then 1 else 0
  | FsTree.dir _ children => forest_count children

/-- Number of regular files with a valid extension in a forest. -/
def forest_count : List FsTree → Nat
  | [] => 0
  | e :: rest => tree_count e + forest_count rest

end

mutual

/-- A real directory tree: no entry is named "." or ".." (readdir only
produces those as the self and parent links, which the scan skips). -/
def tree_wf : FsTree → Bool
  | FsTree.file name => !(name == [46]) && !(name == [46, 46])
  | FsTree.dir name children => !(name == [46]) && !(name == [46, 46]) && forest_wf children

/-- All trees of a forest are well-formed. -/
def forest_wf : List FsTree → Bool
  | [] => true
  | e :: rest => tree_wf e && forest_wf rest

end

/-- A concrete matching file name "a.nsp". -/
def nm_a : List Nat := [97, 46, 110, 115, 112]

/-- The cache entry the scan records for "a.nsp" found in directory
`path`. -/
def entry_a (path : List Nat) : TitleEntry :=
  { display_name := nm_a.take 255, full_path := join_path path nm_a }

/-- strlen: length of the byte string up to its first NUL. -/
def strlen (s : List Nat) : Nat := (s.takeWhile (fun b => b != 0)).length

/-- The buffer process_list_command builds with strcat: every display
name followed by a newline (byte 10), in cache order. -/
def build_nsp_list : List TitleEntry → List Nat
  | [] => []
  | e :: rest => e.display_name ++ [10] ++ build_nsp_list rest

/-- process_list_command's output after the rescan: the List/Response
header carrying strlen of the built buffer, and the payload write of
exactly that many bytes of the buffer. -/
def process_list_command (cache : List TitleEntry) : List Nat × List Nat :=
  (encodeHeader CMD_TYPE_RESPONSE CMD_LIST (strlen (build_nsp_list cache)),
    (build_nsp_list cache).take (strlen (build_nsp_list cache)))

/-- The fields process_file_range_command reads from the FileRange
payload. -/
structure FileRangeRequest where
  range_size : Nat
  range_offset : Nat
  name_length : Nat
  name : List Nat
deriving DecidableEq

/-- Parsing the FileRange payload: u32 range_size at 0, u64 range_offset
at 4, u32 name_length at 12, and the name via
`strncpy(nsp_name, payload + 16, MAX_PATH_LEN - 1)` followed by a forced
NUL — i.e. the bytes from offset 16 up to the first NUL within
MAX_PATH_LEN - 1 bytes, regardless of name_length. -/
def parse_file_range (payload : List Nat) : FileRangeRequest :=
  { range_size := decodeU32 payload 0
    range_offset := decodeU64 payload 4
    name_length := decodeU32 payload 12
    name := ((payload.drop 16).take (MAX_PATH_LEN - 1)).takeWhile (fun b => b != 0) }

/-- The streaming while-loop of process_file_range_command.  `pos` is the
file position (range_offset plus bytes already read), `curr_off`/`end_off`
and `read_size` are the loop variables; `read_size` is clipped to the
remaining byte count when `curr_off + read_size >= end_off` (after which
the loop necessarily exits).  A short fread (`bytes_read != read_size`)
breaks out of the loop without writing that chunk.  Returns the list of
chunks passed to usb_write. -/
def stream_loop (file : List Nat) (pos curr_off end_off read_size : Nat)
    (hread : 0 < read_size) : List (List Nat) :=
  if h : curr_off < end_off then
    if h2 : end_off ≤ curr_off + read_size then
      if ((file.drop pos).take (end_off - curr_off)).length = end_off - curr_off then
        [(file.drop pos).take (end_off - curr_off)]
      else []
    else
      if ((file.drop pos).take read_size).length = read_size then
        (file.drop pos).take read_size ::
          stream_loop file (pos + read_size) (curr_off + read_size) end_off read_size hread
      else []
  else []
termination_by end_off - curr_off
decreasing_by omega

/-- The chunk sequence of one FileRange transfer: the loop started at
curr_off = 0, end_off = range_size, read_size = BUFFER_SEGMENT_DATA_SIZE,
after an fseek to range_offset. -/
def file_range_chunks (file : List Nat) (range_offset range_size : Nat) : List (List Nat) :=
  stream_loop file range_offset 0 range_size BUFFER_SEGMENT_DATA_SIZE (by decide)

/-- process_file_range_command as the sequence of buffers it writes to
the transport: the Ack header echoing the declared payload size, then —
after parsing the payload read back and resolving the name — the
FileRange/Response header carrying range_size, then the streamed chunks.
`fs` is the filesystem collaborator: the contents of the file at a path,
or none when fopen fails (in which case the handler returns right after
the response header, streaming nothing). -/
def process_file_range_command (fs : List Nat → Option (List Nat))
    (cache : List TitleEntry) (data_size : Nat) (payload : List Nat) : List (List Nat) :=
  match fs (find_title_path cache (parse_file_range payload).name) with
  | none =>
    [encodeHeader CMD_TYPE_ACK CMD_FILE_RANGE data_size,
     encodeHeader CMD_TYPE_RESPONSE CMD_FILE_RANGE (parse_file_range payload).range_size]
  | some file =>
    encodeHeader CMD_TYPE_ACK CMD_FILE_RANGE data_size ::
      encodeHeader CMD_TYPE_RESPONSE CMD_FILE_RANGE (parse_file_range payload).range_size ::
        file_range_chunks file (parse_file_range payload).range_offset
          (parse_file_range payload).range_size

/-- State of the poll_commands loop: polling for a header, or returned. -/
inductive LoopState where
  | AwaitingHeader
  | Terminated
deriving DecidableEq

/-- What one usb_read of the 16-byte header slot produced: a negative
libusb error code (ret < 0), or ret = bytes.length transferred bytes. -/
inductive ReadResult where
  | err
  | ok (bytes : List Nat)
deriving DecidableEq

/-- What one iteration of poll_commands does after the read: discard the
input and re-poll, dispatch to a handler, or write the Exit response. -/
inductive StepAction where
  | discard
  | dispatch_list
  | dispatch_file_range (data_size : Nat)
  | write_exit_response
deriving DecidableEq

/-- process_exit_command writes one Exit/Response header with
payload_length 0. -/
def process_exit_command : List Nat := encodeHeader CMD_TYPE_RESPONSE CMD_EXIT 0

/-- The bytes the loop itself writes for an action (dispatch actions
delegate their writes to the handler models above). -/
def step_writes : StepAction → List (List Nat)
  | StepAction.discard => []
  | StepAction.dispatch_list => []
  | StepAction.dispatch_file_range _ => []
  | StepAction.write_exit_response => [process_exit_command]

/-- One iteration of poll_commands: `ret < 16` (short read, or negative
error code) re-polls; a magic mismatch re-polls; otherwise the command id
at offset 8 selects Exit (respond and return), List, FileRange, or the
default branch (respond with Exit and return). -/
def poll_step (r : ReadResult) : LoopState × StepAction :=
  match r with
  | ReadResult.err => (LoopState.AwaitingHeader, StepAction.discard)
  | ReadResult.ok bytes =>
    if bytes.length < 16 then (LoopState.AwaitingHeader, StepAction.discard)
    else if bytes.take 4 = DBI_MAGIC then
      if decodeU32 bytes 8 = CMD_EXIT then
        (LoopState.Terminated, StepAction.write_exit_response)
      else if decodeU32 bytes 8 = CMD_LIST then
        (LoopState.AwaitingHeader, StepAction.dispatch_list)
      else if decodeU32 bytes 8 = CMD_FILE_RANGE then
        (LoopState.AwaitingHeader, StepAction.dispatch_file_range (decodeU32 bytes 12))
      else (LoopState.Terminated, StepAction.write_exit_response)
    else (LoopState.AwaitingHeader, StepAction.discard)

/-- The whole loop over a sequence of read results: iterates poll_step,
stops consuming input once an iteration returns (Terminated); if the
input list is exhausted the loop is still awaiting a header. -/
def poll_commands : List ReadResult → List StepAction × LoopState
  | [] => ([], LoopState.AwaitingHeader)
  | r :: rest =>
    if (poll_step r).1 = LoopState.Terminated then ([(poll_step r).2], LoopState.Terminated)
    else ((poll_step r).2 :: (poll_commands rest).1, (poll_commands rest).2)

/-- Payload of a concrete FileRange request: range_size 3, range_offset 1,
name_length 7 (deliberately wrong), name "a". -/
def payload_a : List Nat := [3, 0, 0, 0, 1, 0, 0, 0, 0, 0, 0, 0, 7, 0, 0, 0, 97]

/-- Helper: the encoded header starts with the magic tag. -/
theorem encodeHeader_take_4 (t i p : Nat) : (encodeHeader t i p).take 4 = DBI_MAGIC := by
  simp [encodeHeader, DBI_MAGIC, u32ToBytes]

/-- Helper: decoding the type field of an encoded header. -/
theorem decodeU32_encodeHeader_4 (t i p : Nat) :
    decodeU32 (encodeHeader t i p) 4 = t % 4294967296 := by
  simp only [encodeHeader, DBI_MAGIC, u32ToBytes, List.cons_append, List.nil_append,
    decodeU32, u32FromBytes, List.getD_cons_succ, List.getD_cons_zero]
  omega

/-- Helper: decoding the command id field of an encoded header. -/
theorem decodeU32_encodeHeader_8 (t i p : Nat) :
    decodeU32 (encodeHeader t i p) 8 = i % 4294967296 := by
  simp only [encodeHeader, DBI_MAGIC, u32ToBytes, List.cons_append, List.nil_append,
    decodeU32, u32FromBytes, List.getD_cons_succ, List.getD_cons_zero]
  omega

/-- Helper: decoding the payload_length field of an encoded header. -/
theorem decodeU32_encodeHeader_12 (t i p : Nat) :
    decodeU32 (encodeHeader t i p) 12 = p % 4294967296 := by
  simp only [encodeHeader, DBI_MAGIC, u32ToBytes, List.cons_append, List.nil_append,
    decodeU32, u32FromBytes, List.getD_cons_succ, List.getD_cons_zero]
  omega

/-- C5: encoding a CommandHeader (magic tag followed by the three
contiguously packed 32-bit integers) and decoding the 16-byte buffer
yields the original (magic, type, id, payload_length) tuple, for all
32-bit field values. -/
theorem command_header_roundtrip (t i p : Nat)
    (ht : t < 4294967296) (hi : i < 4294967296) (hp : p < 4294967296) :
    decodeHeader (encodeHeader t i p) = (DBI_MAGIC, t, i, p) := by
  unfold decodeHeader
  rw [encodeHeader_take_4, decodeU32_encodeHeader_4, decodeU32_encodeHeader_8,
    decodeU32_encodeHeader_12, Nat.mod_eq_of_lt ht, Nat.mod_eq_of_lt hi, Nat.mod_eq_of_lt hp]

/-- C5 witness: the round trip at the List/Response header for a
70000-byte payload. -/
theorem command_header_roundtrip_witness :
    decodeHeader (encodeHeader 1 3 70000) = (DBI_MAGIC, 1, 3, 70000) :=
  command_header_roundtrip 1 3 70000 (by decide) (by decide) (by decide)

/-- C3: find_title_path returns the recorded full_path of the first entry
whose display_name equals the query exactly; when no entry matches it
returns the queried string unchanged, hence it is idempotent on any name
absent from the cache and is the identity on an empty cache. -/
theorem find_title_path_spec (cache : List TitleEntry) (name : List Nat) :
    (∀ e, cache.find? (fun x => x.display_name == name) = some e →
        find_title_path cache name = e.full_path)
    ∧ (cache.find? (fun x => x.display_name == name) = none →
        find_title_path cache name = name)
    ∧ (cache.find? (fun x => x.display_name == name) = none →
        find_title_path cache (find_title_path cache name) = find_title_path cache name)
    ∧ find_title_path [] name = name := by
  induction cache with
  | nil =>
    refine ⟨?_, ?_, ?_, rfl⟩
    · intro e he; simp [List.find?] at he
    · intro _; rfl
    · intro _; rfl
  | cons a rest ih =>
    by_cases h : a.display_name = name
    · refine ⟨?_, ?_, ?_, rfl⟩
      · intro e he
        rw [List.find?_cons_of_pos _ (by simpa using h)] at he
        cases he
        simp [find_title_path, h]
      · intro hnone
        rw [List.find?_cons_of_pos _ (by simpa using h)] at hnone
        cases hnone
      · intro hnone
        rw [List.find?_cons_of_pos _ (by simpa using h)] at hnone
        cases hnone
    · have hstep : find_title_path (a :: rest) name = find_title_path rest name := by
        simp [find_title_path, h]
      refine ⟨?_, ?_, ?_, rfl⟩
      · intro e he
        rw [List.find?_cons_of_neg _ (by simpa using h)] at he
        rw [hstep]
        exact ih.1 e he
      · intro hnone
        rw [List.find?_cons_of_neg _ (by simpa using h)] at hnone
        rw [hstep]
        exact ih.2.1 hnone
      · intro hnone
        rw [List.find?_cons_of_neg _ (by simpa using h)] at hnone
        have habs : find_title_path rest name = name := ih.2.1 hnone
        rw [hstep, habs, hstep, habs]

/-- C3 witness: on a concrete two-entry cache the second entry's name
resolves to its recorded path, and an absent name passes through
unchanged. -/
theorem find_title_path_spec_witness :
    find_title_path
        [{ display_name := [97], full_path := [47, 97] },
         { display_name := [98], full_path := [47, 98] }] [98] = [47, 98]
    ∧ find_title_path
        [{ display_name := [97], full_path := [47, 97] },
         { display_name := [98], full_path := [47, 98] }] [99] = [99] :=
  ⟨(find_title_path_spec _ [98]).1 { display_name := [98], full_path := [47, 98] } (by decide),
   (find_title_path_spec _ [99]).2.1 (by decide)⟩

mutual

/-- Helper: processing one well-formed entry from a non-full cache grows
the cache to min (old count + matching files) MAX_TITLES. -/
theorem scan_dirent_length (path : List Nat) (e : FsTree) (cache : List TitleEntry)
    (hw : tree_wf e = true) (hc : cache.length < MAX_TITLES) :
    (scan_dirent path e cache).1.length = min (cache.length + tree_count e) MAX_TITLES := by
  cases e with
  | file name =>
    simp only [tree_wf, Bool.and_eq_true, Bool.not_eq_true', beq_eq_false_iff_ne, ne_eq] at hw
    simp only [scan_dirent, tree_count]
    rw [if_neg (by tauto)]
    by_cases hv : has_valid_extension name = true
    · rw [if_pos hv, if_pos hv]
      simp only [List.length_append, List.length_cons, List.length_nil]
      omega
    · rw [if_neg hv, if_neg hv]
      simp only [Nat.add_zero]
      omega
  | dir name children =>
    simp only [tree_wf, Bool.and_eq_true, Bool.not_eq_true', beq_eq_false_iff_ne, ne_eq] at hw
    simp only [scan_dirent, tree_count]
    rw [if_neg (by tauto)]
    exact scan_directory_length (join_path path name) children cache hw.2 (Nat.le_of_lt hc)

/-- Helper: scanning a well-formed forest from a cache not over capacity
yields min (old count + matching files) MAX_TITLES entries. -/
theorem scan_directory_length (path : List Nat) (es : List FsTree) (cache : List TitleEntry)
    (hw : forest_wf es = true) (hc : cache.length ≤ MAX_TITLES) :
    (scan_directory path es cache).1.length
      = min (cache.length + forest_count es) MAX_TITLES := by
  cases es with
  | nil =>
    simp only [scan_directory, forest_count, Nat.add_zero]
    omega
  | cons e rest =>
    simp only [forest_wf, Bool.and_eq_true] at hw
    by_cases h : cache.length < MAX_TITLES
    · simp only [scan_directory, forest_count]
      rw [if_pos h]
      have h1 := scan_dirent_length path e cache hw.1 h
      have h2 := scan_directory_length path rest (scan_dirent path e cache).1 hw.2
        (by omega)
      rw [h2, h1]
      omega
    · simp only [scan_directory, forest_count]
      rw [if_neg h]
      show cache.length = _
      omega

end

/-- Helper: with the cache already at capacity the readdir loop exits at
once — the cache is unchanged and no directory is opened. -/
theorem scan_directory_full (path : List Nat) (es : List FsTree) (cache : List TitleEntry)
    (h : MAX_TITLES ≤ cache.length) : scan_directory path es cache = (cache, []) := by
  cases es with
  | nil => simp [scan_directory]
  | cons e rest =>
    simp only [scan_directory]
    rw [if_neg (by omega)]

/-- C2 (amended): rescanning from an empty cache yields exactly
min (number of matching regular files, MAX_TITLES) entries; and once the
cache is at capacity the readdir loop exits immediately — remaining
entries are not examined and no further directory is opened. -/
theorem rescan_count_min_capped (root : List Nat) (es : List FsTree)
    (hw : forest_wf es = true) :
    (scan_directory root es []).1.length = min (forest_count es) MAX_TITLES
    ∧ ∀ (path : List Nat) (es2 : List FsTree) (cache : List TitleEntry),
        MAX_TITLES ≤ cache.length → scan_directory path es2 cache = (cache, []) := by
  constructor
  · have h := scan_directory_length root es [] hw (by simp [MAX_TITLES])
    simpa using h
  · intro path es2 cache h
    exact scan_directory_full path es2 cache h

/-- Helper: a run of n copies of "a.nsp" at the front of a directory fills
the cache with n entries and opens no subdirectory, as long as capacity
is not exceeded. -/
theorem scan_directory_replicate (p : List Nat) (rest : List FsTree) :
    ∀ (n : Nat) (cache : List TitleEntry), cache.length + n ≤ MAX_TITLES →
      scan_directory p (List.replicate n (FsTree.file nm_a) ++ rest) cache
        = scan_directory p rest (cache ++ List.replicate n (entry_a p)) := by
  intro n
  induction n with
  | zero => intro cache h; simp
  | succ n ih =>
    intro cache h
    rw [List.replicate_succ, List.cons_append]
    simp only [scan_directory]
    rw [if_pos (by omega)]
    have hd : scan_dirent p (FsTree.file nm_a) cache = (cache ++ [entry_a p], []) := by
      simp only [scan_dirent]
      rw [if_neg (by decide), if_pos (by decide)]
      rfl
    rw [hd]
    rw [ih (cache ++ [entry_a p]) (by simp; omega)]
    simp [List.replicate_succ, List.append_assoc]

/-- Helper: the matching-file count is additive over forest append. -/
theorem forest_count_append (a b : List FsTree) :
    forest_count (a ++ b) = forest_count a + forest_count b := by
  induction a with
  | nil => simp [forest_count]
  | cons e rest ih =>
    rw [List.cons_append]
    simp only [forest_count]
    rw [ih]
    omega

/-- Helper: n copies of "a.nsp" count as n matching files. -/
theorem forest_count_replicate (n : Nat) :
    forest_count (List.replicate n (FsTree.file nm_a)) = n := by
  induction n with
  | zero => simp [forest_count]
  | succ n ih =>
    rw [List.replicate_succ]
    simp only [forest_count, tree_count, ih]
    rw [if_pos (by decide)]
    omega

/-- C2 counterexample: a directory holding MAX_TITLES matching files and
then a subdirectory with one more matching file.  The catalog reaches
capacity, and — contrary to the claim that "scanning continues for
completeness of traversal" — the subdirectory is never opened: the list
of directories visited by recursive calls is empty. -/
theorem scan_stops_at_capacity_counterexample :
    (scan_directory [114] (List.replicate MAX_TITLES (FsTree.file nm_a)
        ++ [FsTree.dir [100] [FsTree.file nm_a]]) []).2 = []
    ∧ forest_count (List.replicate MAX_TITLES (FsTree.file nm_a)
        ++ [FsTree.dir [100] [FsTree.file nm_a]]) = MAX_TITLES + 1 := by
  constructor
  · rw [scan_directory_replicate [114] _ MAX_TITLES [] (by simp only [List.length_nil]; omega)]
    rw [List.nil_append, scan_directory_full [114] _ _ (by rw [List.length_replicate])]
  · rw [forest_count_append, forest_count_replicate]
    simp only [forest_count, tree_count]
    rw [if_pos (by decide)]

/-- C2 witness: a concrete three-entry tree (two matching files, one of
them inside a subdirectory, plus one non-matching file) yields
min 2 MAX_TITLES = 2 entries; and the capacity-exit branch at a full
cache returns it unchanged with no directory visited. -/
theorem rescan_count_min_capped_witness :
    ((scan_directory [114] [FsTree.file nm_a,
        FsTree.dir [100] [FsTree.file [98, 46, 120, 99, 105]],
        FsTree.file [99]] []).1.length
      = min (forest_count [FsTree.file nm_a,
          FsTree.dir [100] [FsTree.file [98, 46, 120, 99, 105]],
          FsTree.file [99]]) MAX_TITLES)
    ∧ scan_directory [114] [FsTree.file [99]] (List.replicate MAX_TITLES (entry_a [114]))
        = (List.replicate MAX_TITLES (entry_a [114]), []) := by
  have hw : forest_wf [FsTree.file nm_a,
      FsTree.dir [100] [FsTree.file [98, 46, 120, 99, 105]],
      FsTree.file [99]] = true := by
    simp only [forest_wf, tree_wf]
    decide
  exact ⟨(rescan_count_min_capped [114] _ hw).1,
    (rescan_count_min_capped [114] _ hw).2 [114] _ _ (by rw [List.length_replicate])⟩

/-- Helper: a byte list with no NUL byte has strlen equal to its length. -/
theorem strlen_of_no_zero (s : List Nat) (h : ∀ b ∈ s, b ≠ 0) : strlen s = s.length := by
  unfold strlen
  have : s.takeWhile (fun b => b != 0) = s := by
    induction s with
    | nil => rfl
    | cons a rest ih =>
      rw [List.takeWhile_cons_of_pos]
      · rw [ih (fun b hb => h b (List.mem_cons_of_mem a hb))]
      · have := h a (List.mem_cons_self a rest)
        simpa using this
  rw [this]

/-- Helper: the built buffer contains no NUL byte when no display name
does (newlines are byte 10). -/
theorem build_nsp_list_no_zero (cache : List TitleEntry)
    (h : ∀ e ∈ cache, ∀ b ∈ e.display_name, b ≠ 0) :
    ∀ b ∈ build_nsp_list cache, b ≠ 0 := by
  induction cache with
  | nil => intro b hb; simp [build_nsp_list] at hb
  | cons e rest ih =>
    intro b hb
    simp only [build_nsp_list, List.append_assoc, List.mem_append, List.mem_cons,
      List.not_mem_nil, or_false] at hb
    rcases hb with hb | hb | hb
    · exact h e (List.mem_cons_self e rest) b hb
    · omega
    · exact ih (fun x hx => h x (List.mem_cons_of_mem e hx)) b hb

/-- Helper: with display names of at most 255 bytes the built buffer has
at most 256 bytes per entry. -/
theorem build_nsp_list_length_le (cache : List TitleEntry)
    (h : ∀ e ∈ cache, e.display_name.length ≤ 255) :
    (build_nsp_list cache).length ≤ cache.length * 256 := by
  induction cache with
  | nil => simp [build_nsp_list]
  | cons e rest ih =>
    have h1 := h e (List.mem_cons_self e rest)
    have h2 := ih (fun x hx => h x (List.mem_cons_of_mem e hx))
    simp only [build_nsp_list, List.length_append, List.length_cons, List.length_nil]
    omega

/-- C4: the List handler writes, after the acknowledgement exchange, a
payload of exactly as many bytes as the payload_length it declared in
the List/Response header — the newline-joined concatenation of the
display names in catalog order — for any cache within the capacity
bound. -/
theorem list_payload_matches_declared_length (cache : List TitleEntry)
    (hcount : cache.length ≤ MAX_TITLES)
    (hname : ∀ e ∈ cache, e.display_name.length ≤ 255)
    (hz : ∀ e ∈ cache, ∀ b ∈ e.display_name, b ≠ 0) :
    (process_list_command cache).2.length = decodeU32 (process_list_command cache).1 12
    ∧ (process_list_command cache).2 = build_nsp_list cache := by
  have hs : strlen (build_nsp_list cache) = (build_nsp_list cache).length :=
    strlen_of_no_zero _ (build_nsp_list_no_zero cache hz)
  have hb : (build_nsp_list cache).length ≤ MAX_TITLES * 256 := by
    have := build_nsp_list_length_le cache hname
    have : cache.length * 256 ≤ MAX_TITLES * 256 := by
      exact Nat.mul_le_mul_right 256 hcount
    omega
  have hpayload : (process_list_command cache).2 = build_nsp_list cache := by
    unfold process_list_command
    rw [hs, List.take_length]
  constructor
  · rw [hpayload]
    unfold process_list_command
    rw [decodeU32_encodeHeader_12, hs, Nat.mod_eq_of_lt]
    have : MAX_TITLES * 256 < 4294967296 := by decide
    omega
  · exact hpayload

/-- C4 witness: a concrete two-entry cache ("a.nsp", "b.xci") declares 12
bytes and writes the 12-byte payload. -/
theorem list_payload_matches_declared_length_witness :
    (process_list_command
        [{ display_name := [97, 46, 110, 115, 112], full_path := [47, 97] },
         { display_name := [98, 46, 120, 99, 105], full_path := [47, 98] }]).2.length
      = decodeU32 (process_list_command
        [{ display_name := [97, 46, 110, 115, 112], full_path := [47, 97] },
         { display_name := [98, 46, 120, 99, 105], full_path := [47, 98] }]).1 12 :=
  (list_payload_matches_declared_length _ (by simp [MAX_TITLES]) (by decide) (by decide)).1

/-- Helper: when the file holds the whole requested span, the streamed
chunks concatenate to exactly the file bytes from `pos` for the
remaining `end_off - curr_off` bytes. -/
theorem stream_loop_flatten (file : List Nat) (pos curr_off end_off read_size : Nat)
    (hread : 0 < read_size) (hfile : pos + (end_off - curr_off) ≤ file.length) :
    (stream_loop file pos curr_off end_off read_size hread).flatten
      = (file.drop pos).take (end_off - curr_off) := by
  rw [stream_loop]
  split
  case isTrue h =>
    split
    case isTrue h2 =>
      have hc : ((file.drop pos).take (end_off - curr_off)).length = end_off - curr_off := by
        simp only [List.length_take, List.length_drop]
        omega
      rw [if_pos hc]
      simp
    case isFalse h2 =>
      have hc : ((file.drop pos).take read_size).length = read_size := by
        simp only [List.length_take, List.length_drop]
        omega
      rw [if_pos hc]
      rw [List.flatten_cons]
      rw [stream_loop_flatten file (pos + read_size) (curr_off + read_size) end_off read_size
        hread (by omega)]
      have hsplit : end_off - curr_off = read_size + (end_off - (curr_off + read_size)) := by
        omega
      rw [hsplit, List.take_add]
      congr 1
      rw [List.drop_drop]
  case isFalse h =>
    have : end_off - curr_off = 0 := by omega
    rw [this]
    simp
termination_by end_off - curr_off

/-- Helper: every streamed chunk is at most read_size bytes. -/
theorem stream_loop_chunk_le (file : List Nat) (pos curr_off end_off read_size : Nat)
    (hread : 0 < read_size) :
    ∀ c ∈ stream_loop file pos curr_off end_off read_size hread, c.length ≤ read_size := by
  rw [stream_loop]
  split
  case isTrue h =>
    split
    case isTrue h2 =>
      split
      case isTrue hc =>
        intro c hcmem
        rw [List.mem_singleton] at hcmem
        subst hcmem
        simp only [List.length_take, List.length_drop]
        omega
      case isFalse hc => intro c hcmem; simp at hcmem
    case isFalse h2 =>
      split
      case isTrue hc =>
        intro c hcmem
        rw [List.mem_cons] at hcmem
        rcases hcmem with hcmem | hcmem
        · subst hcmem
          simp only [List.length_take, List.length_drop]
          omega
        · exact stream_loop_chunk_le file (pos + read_size) (curr_off + read_size) end_off
            read_size hread c hcmem
      case isFalse hc => intro c hcmem; simp at hcmem
  case isFalse h => intro c hcmem; simp at hcmem
termination_by end_off - curr_off

/-- Helper: with no assumption on the file, the streamed bytes are always
a prefix of the file bytes from `pos`, of total length at most the
remaining byte count — a short read stops the stream early. -/
theorem stream_loop_flatten_short (file : List Nat) (pos curr_off end_off read_size : Nat)
    (hread : 0 < read_size) :
    (stream_loop file pos curr_off end_off read_size hread).flatten
        = (file.drop pos).take
            (stream_loop file pos curr_off end_off read_size hread).flatten.length
    ∧ (stream_loop file pos curr_off end_off read_size hread).flatten.length
        ≤ end_off - curr_off := by
  rw [stream_loop]
  split
  case isTrue h =>
    split
    case isTrue h2 =>
      split
      case isTrue hc =>
        constructor
        · simp only [List.flatten_cons, List.flatten_nil, List.append_nil]
          rw [hc]
        · simp only [List.flatten_cons, List.flatten_nil, List.append_nil]
          rw [hc]
      case isFalse hc => simp
    case isFalse h2 =>
      split
      case isTrue hc =>
        have ih := stream_loop_flatten_short file (pos + read_size) (curr_off + read_size)
          end_off read_size hread
        constructor
        · rw [List.flatten_cons, List.length_append, hc, List.take_add]
          congr 1
          rw [List.drop_drop]
          exact ih.1
        · rw [List.flatten_cons, List.length_append, hc]
          omega
      case isFalse hc => simp
  case isFalse h => simp
termination_by end_off - curr_off

/-- C1: for a FileRange request whose resolved file holds the whole span
[O, O+S), the handler writes the Ack header, the FileRange/Response
header declaring payload_length = S, and then chunks that concatenate to
exactly the file bytes [O, O+S), each chunk (in particular the last) at
most BUFFER_SEGMENT_DATA_SIZE bytes, the chunk sizes summing to S; for
S = 0 no chunk is written at all and the response header declares
payload_length 0. -/
theorem file_range_streams_exact_range (fs : List Nat → Option (List Nat))
    (cache : List TitleEntry) (ds : Nat) (payload file : List Nat) (O S : Nat)
    (hO : (parse_file_range payload).range_offset = O)
    (hS : (parse_file_range payload).range_size = S)
    (hfs : fs (find_title_path cache (parse_file_range payload).name) = some file)
    (hlen : O + S ≤ file.length) :
    process_file_range_command fs cache ds payload
        = encodeHeader CMD_TYPE_ACK CMD_FILE_RANGE ds ::
          encodeHeader CMD_TYPE_RESPONSE CMD_FILE_RANGE S ::
          file_range_chunks file O S
    ∧ (file_range_chunks file O S).flatten = (file.drop O).take S
    ∧ (∀ c ∈ file_range_chunks file O S, c.length ≤ BUFFER_SEGMENT_DATA_SIZE)
    ∧ ((file_range_chunks file O S).map List.length).sum = S
    ∧ (S = 0 → file_range_chunks file O S = []
        ∧ decodeU32 (encodeHeader CMD_TYPE_RESPONSE CMD_FILE_RANGE S) 12 = 0) := by
  have hflat : (file_range_chunks file O S).flatten = (file.drop O).take S := by
    unfold file_range_chunks
    have h := stream_loop_flatten file O 0 S BUFFER_SEGMENT_DATA_SIZE (by decide)
      (by omega)
    simpa using h
  refine ⟨?_, hflat, ?_, ?_, ?_⟩
  · unfold process_file_range_command
    rw [hfs, hO, hS]
  · unfold file_range_chunks
    exact stream_loop_chunk_le file O 0 S BUFFER_SEGMENT_DATA_SIZE (by decide)
  · rw [← List.length_flatten, hflat, List.length_take, List.length_drop]
    omega
  · intro h0
    subst h0
    constructor
    · unfold file_range_chunks
      rw [stream_loop]
      simp
    · rw [decodeU32_encodeHeader_12]

/-- C1 witness: the request of payload_a against a five-byte file yields
the two headers and chunks flattening to bytes [1, 4) of the file. -/
theorem file_range_streams_exact_range_witness :
    process_file_range_command (fun _ => some [5, 6, 7, 8, 9]) [] 17 payload_a
        = encodeHeader CMD_TYPE_ACK CMD_FILE_RANGE 17 ::
          encodeHeader CMD_TYPE_RESPONSE CMD_FILE_RANGE 3 ::
          file_range_chunks [5, 6, 7, 8, 9] 1 3
    ∧ (file_range_chunks [5, 6, 7, 8, 9] 1 3).flatten = [6, 7, 8] := by
  have h := file_range_streams_exact_range (fun _ => some [5, 6, 7, 8, 9]) [] 17
    payload_a [5, 6, 7, 8, 9] 1 3 (by decide) (by decide) rfl (by decide)
  exact ⟨h.1, by rw [h.2.1]; rfl⟩

/-- C9: FileRange failures are contained.  When fopen fails the handler
writes nothing beyond the two headers; when any fread is short the
streamed bytes are a prefix of the requested span, of length at most the
declared range_size; and in either case the session loop stays in
AwaitingHeader after dispatching a FileRange command, so subsequent
commands are still served. -/
theorem file_range_failure_contained (fs : List Nat → Option (List Nat))
    (cache : List TitleEntry) (ds : Nat) (payload : List Nat) :
    (fs (find_title_path cache (parse_file_range payload).name) = none →
      process_file_range_command fs cache ds payload
        = [encodeHeader CMD_TYPE_ACK CMD_FILE_RANGE ds,
           encodeHeader CMD_TYPE_RESPONSE CMD_FILE_RANGE (parse_file_range payload).range_size])
    ∧ (∀ file, fs (find_title_path cache (parse_file_range payload).name) = some file →
        process_file_range_command fs cache ds payload
          = encodeHeader CMD_TYPE_ACK CMD_FILE_RANGE ds ::
            encodeHeader CMD_TYPE_RESPONSE CMD_FILE_RANGE
              (parse_file_range payload).range_size ::
            file_range_chunks file (parse_file_range payload).range_offset
              (parse_file_range payload).range_size
        ∧ (file_range_chunks file (parse_file_range payload).range_offset
              (parse_file_range payload).range_size).flatten
            = (file.drop (parse_file_range payload).range_offset).take
                (file_range_chunks file (parse_file_range payload).range_offset
                  (parse_file_range payload).range_size).flatten.length
        ∧ (file_range_chunks file (parse_file_range payload).range_offset
              (parse_file_range payload).range_size).flatten.length
            ≤ (parse_file_range payload).range_size)
    ∧ (∀ bytes : List Nat, 16 ≤ bytes.length → bytes.take 4 = DBI_MAGIC →
        decodeU32 bytes 8 = CMD_FILE_RANGE →
        (poll_step (ReadResult.ok bytes)).1 = LoopState.AwaitingHeader) := by
  refine ⟨?_, ?_, ?_⟩
  · intro hnone
    unfold process_file_range_command
    rw [hnone]
  · intro file hsome
    refine ⟨?_, ?_, ?_⟩
    · unfold process_file_range_command
      rw [hsome]
    · unfold file_range_chunks
      exact (stream_loop_flatten_short file (parse_file_range payload).range_offset 0
        (parse_file_range payload).range_size BUFFER_SEGMENT_DATA_SIZE (by decide)).1
    · unfold file_range_chunks
      have h := (stream_loop_flatten_short file (parse_file_range payload).range_offset 0
        (parse_file_range payload).range_size BUFFER_SEGMENT_DATA_SIZE (by decide)).2
      omega
  · intro bytes hblen hmagic hid
    simp only [poll_step]
    rw [if_neg (by omega), if_pos hmagic, if_neg (by rw [hid]; decide),
      if_neg (by rw [hid]; decide), if_pos hid]

/-- C9 witness: against a filesystem where no path opens, the handler of
payload_a writes exactly the two headers; and a FileRange header leaves
the loop in AwaitingHeader. -/
theorem file_range_failure_contained_witness :
    process_file_range_command (fun _ => (none : Option (List Nat))) [] 17 payload_a
      = [encodeHeader CMD_TYPE_ACK CMD_FILE_RANGE 17,
         encodeHeader CMD_TYPE_RESPONSE CMD_FILE_RANGE
           (parse_file_range payload_a).range_size]
    ∧ (poll_step (ReadResult.ok (encodeHeader CMD_TYPE_REQUEST CMD_FILE_RANGE 17))).1
        = LoopState.AwaitingHeader :=
  ⟨(file_range_failure_contained (fun _ => none) [] 17 payload_a).1 rfl,
   (file_range_failure_contained (fun _ => none) [] 17 payload_a).2.2 _
     (by decide) (by decide) (by decide)⟩

/-- C10: two FileRange payloads of the same length that agree on every
byte outside the name_length field (offsets 12..15) parse to the same
name and resolve to the same path — name_length never influences which
bytes become the name. -/
theorem name_length_noninterference (p1 p2 : List Nat)
    (hlen : p1.length = p2.length)
    (h : ∀ i, i < p1.length → (i < 12 ∨ 16 ≤ i) → p1.getD i 0 = p2.getD i 0) :
    (parse_file_range p1).name = (parse_file_range p2).name
    ∧ ∀ cache, find_title_path cache (parse_file_range p1).name
        = find_title_path cache (parse_file_range p2).name := by
  have hdrop : p1.drop 16 = p2.drop 16 := by
    apply List.ext_getElem
    · simp [hlen]
    · intro n h1 h2
      rw [List.getElem_drop, List.getElem_drop]
      have hb : 16 + n < p1.length := by
        rw [List.length_drop] at h1
        omega
      have heq := h (16 + n) hb (Or.inr (by omega))
      rw [List.getD_eq_getElem p1 0 hb, List.getD_eq_getElem p2 0 (by omega)] at heq
      exact heq
  have hname : (parse_file_range p1).name = (parse_file_range p2).name := by
    simp only [parse_file_range]
    rw [hdrop]
  exact ⟨hname, fun cache => by rw [hname]⟩

/-- C10 witness: two concrete payloads differing only in the name_length
field (7 versus 200) parse the same name and resolve identically. -/
theorem name_length_noninterference_witness :
    (parse_file_range [3, 0, 0, 0, 1, 0, 0, 0, 0, 0, 0, 0, 7, 0, 0, 0, 97, 0]).name
      = (parse_file_range [3, 0, 0, 0, 1, 0, 0, 0, 0, 0, 0, 0, 200, 0, 0, 0, 97, 0]).name
    ∧ find_title_path [{ display_name := [97], full_path := [47, 116, 97] }]
        (parse_file_range [3, 0, 0, 0, 1, 0, 0, 0, 0, 0, 0, 0, 7, 0, 0, 0, 97, 0]).name
      = find_title_path [{ display_name := [97], full_path := [47, 116, 97] }]
        (parse_file_range [3, 0, 0, 0, 1, 0, 0, 0, 0, 0, 0, 0, 200, 0, 0, 0, 97, 0]).name := by
  have h := name_length_noninterference
    [3, 0, 0, 0, 1, 0, 0, 0, 0, 0, 0, 0, 7, 0, 0, 0, 97, 0]
    [3, 0, 0, 0, 1, 0, 0, 0, 0, 0, 0, 0, 200, 0, 0, 0, 97, 0]
    (by decide) (by decide)
  exact ⟨h.1, h.2 _⟩

/-- C7: an inbound transfer that is short (fewer than 16 bytes) or whose
first 4 bytes are not the magic tag is discarded: the loop stays in
AwaitingHeader, nothing is dispatched, and no response is written. -/
theorem invalid_header_discarded (bytes : List Nat)
    (h : bytes.length < 16 ∨ bytes.take 4 ≠ DBI_MAGIC) :
    poll_step (ReadResult.ok bytes) = (LoopState.AwaitingHeader, StepAction.discard)
    ∧ step_writes StepAction.discard = [] := by
  constructor
  · simp only [poll_step]
    rcases h with h | h
    · rw [if_pos h]
    · by_cases h1 : bytes.length < 16
      · rw [if_pos h1]
      · rw [if_neg h1, if_neg h]
  · rfl

/-- C7 witness: a 3-byte transfer is discarded with no write. -/
theorem invalid_header_discarded_witness :
    poll_step (ReadResult.ok [1, 2, 3]) = (LoopState.AwaitingHeader, StepAction.discard)
    ∧ step_writes StepAction.discard = [] :=
  invalid_header_discarded [1, 2, 3] (Or.inl (by decide))

/-- C8: a well-framed header whose command id is none of Exit, FileRange
or List (including ListLegacy = 1) makes the loop write exactly one
Exit/Response header with payload_length 0 and return — the rest of the
input is never read. -/
theorem unknown_command_exits (bytes : List Nat) (rest : List ReadResult)
    (hblen : 16 ≤ bytes.length) (hmagic : bytes.take 4 = DBI_MAGIC)
    (h0 : decodeU32 bytes 8 ≠ CMD_EXIT) (h2 : decodeU32 bytes 8 ≠ CMD_FILE_RANGE)
    (h3 : decodeU32 bytes 8 ≠ CMD_LIST) :
    poll_commands (ReadResult.ok bytes :: rest)
      = ([StepAction.write_exit_response], LoopState.Terminated)
    ∧ step_writes StepAction.write_exit_response = [process_exit_command]
    ∧ process_exit_command = encodeHeader CMD_TYPE_RESPONSE CMD_EXIT 0
    ∧ decodeU32 process_exit_command 12 = 0 := by
  have hstep : poll_step (ReadResult.ok bytes)
      = (LoopState.Terminated, StepAction.write_exit_response) := by
    simp only [poll_step]
    rw [if_neg (by omega), if_pos hmagic, if_neg h0, if_neg h3, if_neg h2]
  refine ⟨?_, rfl, rfl, by decide⟩
  simp only [poll_commands]
  rw [hstep]
  simp

/-- C8 witness: the ListLegacy id 1 triggers exactly one Exit response
and termination, without consuming a pending Exit command behind it. -/
theorem unknown_command_exits_witness :
    poll_commands [ReadResult.ok (encodeHeader CMD_TYPE_REQUEST CMD_LIST_DEPRECATED 0),
        ReadResult.ok (encodeHeader CMD_TYPE_REQUEST CMD_EXIT 0)]
      = ([StepAction.write_exit_response], LoopState.Terminated) :=
  (unknown_command_exits (encodeHeader CMD_TYPE_REQUEST CMD_LIST_DEPRECATED 0)
    [ReadResult.ok (encodeHeader CMD_TYPE_REQUEST CMD_EXIT 0)]
    (by decide) (by decide) (by decide) (by decide) (by decide)).1

/-- C6 counterexample: after a fatal transport error on the header read
(usb_read returning a negative value, hence ret < 16) the loop does NOT
stop — it polls again, and here goes on to serve the next command, an
Exit, before terminating.  This refutes the claim that a fatal transport
error on read causes the loop to stop rather than poll again. -/
theorem transport_error_repolls_counterexample :
    poll_commands [ReadResult.err, ReadResult.ok (encodeHeader CMD_TYPE_REQUEST CMD_EXIT 0)]
      = ([StepAction.discard, StepAction.write_exit_response], LoopState.Terminated)
    ∧ (poll_step ReadResult.err).1 = LoopState.AwaitingHeader := by
  exact ⟨by decide, rfl⟩

/-- C6 (amended): an iteration of the session loop returns (terminating
the loop) exactly when the read produced at least 16 bytes whose first 4
bytes are the magic tag and whose command id is Exit or unrecognized
(not List, not FileRange); transport errors on the header read never
terminate the loop — it polls again. -/
theorem poll_step_terminated_iff :
    (∀ bytes : List Nat, (poll_step (ReadResult.ok bytes)).1 = LoopState.Terminated ↔
      (16 ≤ bytes.length ∧ bytes.take 4 = DBI_MAGIC ∧
        (decodeU32 bytes 8 = CMD_EXIT ∨
          (decodeU32 bytes 8 ≠ CMD_LIST ∧ decodeU32 bytes 8 ≠ CMD_FILE_RANGE))))
    ∧ (poll_step ReadResult.err).1 = LoopState.AwaitingHeader := by
  constructor
  · intro bytes
    simp only [poll_step]
    split_ifs with h1 h2 h3 h4 h5
    · simp only [reduceCtorEq, false_iff]
      omega
    · simp only [true_iff]
      exact ⟨by omega, h2, Or.inl h3⟩
    · simp only [reduceCtorEq, false_iff]
      intro hcon
      rcases hcon.2.2 with hcon2 | hcon2
      · exact h3 hcon2
      · exact hcon2.1 h4
    · simp only [reduceCtorEq, false_iff]
      intro hcon
      rcases hcon.2.2 with hcon2 | hcon2
      · exact h3 hcon2
      · exact hcon2.2 h5
    · simp only [true_iff]
      exact ⟨by omega, h2, Or.inr ⟨h4, h5⟩⟩
    · simp only [reduceCtorEq, false_iff]
      intro hcon
      exact h2 hcon.2.1
  · rfl

end DbiBackend
